import Mathlib

set_option maxRecDepth 100000

/-!
Verification model of the `gh search` core (pkg/cmd/search/shared/searcher.go
together with the search data model in pkg/search): query compilation,
paginated fetching, and HTTP error translation.

Each definition is a shallow embedding of the corresponding Go function,
translated from the source. Go machine integers are modelled as `Int`
(values stay far from 2^63 in all facts below; `strconv.Atoi` overflow is
modelled explicitly). Fallible operations return `Option`, and the fetch
loop, whose termination depends on provider behaviour, runs on explicit
fuel.
-/

/-! ## String utilities -/

/-- The cutset of `strings.ContainsAny(k, " \"\t\r\n")` used by
`quoteKeyword` and `quoteQualifier` (searcher.go). -/
def containsAnySpecial (s : String) : Bool :=
  s.data.any (fun c => c == ' ' || c == '"' || c == '\t' || c == '\r' || c == '\n')

/-- Split a character list at the first occurrence of `sep`: returns the
part strictly before and the part strictly after. Models
`strings.SplitN(k, sep, 2)` when `sep` occurs, and the capture-up-to-first
behaviour of `[^c]*c` regex fragments. -/
def splitAtChar (sep : Char) : List Char → Option (List Char × List Char)
  | [] => none
  | c :: rest =>
    if c = sep then some ([], rest)
    else
      match splitAtChar sep rest with
      | some (a, b) => some (c :: a, b)
      | none => none

theorem splitAtChar_snd_lt (sep : Char) :
    ∀ l a b, splitAtChar sep l = some (a, b) → b.length < l.length := by
  intro l
  induction l with
  | nil => intro a b h; simp [splitAtChar] at h
  | cons c rest ih =>
    intro a b h
    by_cases hc : c = sep
    · simp only [splitAtChar, if_pos hc] at h
      cases h
      simp
    · simp only [splitAtChar, if_neg hc] at h
      cases hsplit : splitAtChar sep rest with
      | none => rw [hsplit] at h; cases h
      | some ab =>
        obtain ⟨a', b'⟩ := ab
        rw [hsplit] at h
        cases h
        have := ih _ _ hsplit
        simp only [List.length_cons]
        omega

theorem splitAtChar_not_mem (sep : Char) :
    ∀ l a b, splitAtChar sep l = some (a, b) → sep ∉ a := by
  intro l
  induction l with
  | nil => intro a b h; simp [splitAtChar] at h
  | cons c rest ih =>
    intro a b h
    by_cases hc : c = sep
    · simp only [splitAtChar, if_pos hc] at h
      cases h
      simp
    · simp only [splitAtChar, if_neg hc] at h
      cases hsplit : splitAtChar sep rest with
      | none => rw [hsplit] at h; cases h
      | some ab =>
        obtain ⟨a', b'⟩ := ab
        rw [hsplit] at h
        cases h
        intro hmem
        rcases List.mem_cons.mp hmem with h1 | h1
        · exact hc h1.symm
        · exact ih _ _ hsplit h1

theorem splitAtChar_append (sep : Char) :
    ∀ l a b, splitAtChar sep l = some (a, b) → a ++ sep :: b = l := by
  intro l
  induction l with
  | nil => intro a b h; simp [splitAtChar] at h
  | cons c rest ih =>
    intro a b h
    by_cases hc : c = sep
    · simp only [splitAtChar, if_pos hc] at h
      cases h
      simp [hc]
    · simp only [splitAtChar, if_neg hc] at h
      cases hsplit : splitAtChar sep rest with
      | none => rw [hsplit] at h; cases h
      | some ab =>
        obtain ⟨a', b'⟩ := ab
        rw [hsplit] at h
        cases h
        simp only [List.cons_append, List.cons.injEq, true_and]
        exact ih _ _ hsplit

theorem dropWhile_length_le (p : Char → Bool) :
    ∀ l : List Char, (l.dropWhile p).length ≤ l.length := by
  intro l
  induction l with
  | nil => simp
  | cons c rest ih =>
    by_cases hc : p c
    · simp only [List.dropWhile, hc]
      simp only [List.length_cons]
      omega
    · simp [List.dropWhile, hc]

/-- Lower-case hex digit, as produced by Go's `%x`. -/
def hexDigitChar (n : Nat) : Char :=
  if n < 10 then Char.ofNat (48 + n) else Char.ofNat (87 + n)

/-- Escaping of one character under Go's `%q` / `strconv.Quote`, restricted
to the cases that can occur in this program's inputs: the special escapes,
`\xNN` for ASCII control characters, and the character itself otherwise.
(Go additionally escapes non-printable characters above U+007F, which are
never produced by the code under study; all facts below are stated over the
exact range.) -/
def goQuoteChar (c : Char) : List Char :=
  if c = '"' then ['\\', '"']
  else if c = '\\' then ['\\', '\\']
  else if c = Char.ofNat 7 then ['\\', 'a']
  else if c = Char.ofNat 8 then ['\\', 'b']
  else if c = Char.ofNat 12 then ['\\', 'f']
  else if c = '\n' then ['\\', 'n']
  else if c = '\r' then ['\\', 'r']
  else if c = '\t' then ['\\', 't']
  else if c = Char.ofNat 11 then ['\\', 'v']
  else if c.toNat < 32 ∨ c.toNat = 127 then
    ['\\', 'x', hexDigitChar (c.toNat / 16), hexDigitChar (c.toNat % 16)]
  else [c]

/-- Go's `fmt.Sprintf("%q", s)` on a string: the escaped body wrapped in
double quotes. -/
def goQuote (s : String) : String :=
  String.mk ('"' :: (s.data.map goQuoteChar).flatten ++ ['"'])

/-- Characters with the Unicode White_Space property, as used by
`unicode.IsSpace` / `strings.TrimSpace`. -/
def isGoSpace (c : Char) : Bool :=
  c == ' ' || c == '\t' || c == '\n' || c == Char.ofNat 11 || c == Char.ofNat 12 ||
  c == '\r' || c == Char.ofNat 0x85 || c == Char.ofNat 0xa0 || c == Char.ofNat 0x1680 ||
  (decide (0x2000 ≤ c.toNat) && decide (c.toNat ≤ 0x200a)) ||
  c == Char.ofNat 0x2028 || c == Char.ofNat 0x2029 || c == Char.ofNat 0x202f ||
  c == Char.ofNat 0x205f || c == Char.ofNat 0x3000

/-- `strings.TrimSpace`. -/
def goTrimSpace (s : String) : String :=
  String.mk (((s.data.dropWhile isGoSpace).reverse.dropWhile isGoSpace).reverse)

/-! ## The three regular expressions of searcher.go, as direct scanners

`linkRE = <([^>]+)>;\s*rel="([^"]+)"`, `pageRE = (\?|&)page=(\d*)`,
`jsonTypeRE = [/+]json($|;)`. Each is implemented as the deterministic
leftmost-match scan that RE2 performs for that particular pattern: the
character classes `[^>]` and `[^"]` cannot cross their closing delimiter,
and `\s` is disjoint from `r`, so no backtracking choices exist. -/

/-- Whitespace class `\s` of Go regexp: `[\t\n\f\r ]`. -/
def isRegexSpace (c : Char) : Bool :=
  c == ' ' || c == '\t' || c == '\n' || c == Char.ofNat 12 || c == '\r'

/-- Try to match `linkRE` anchored at the head of `l`. On success returns
the two captures (URL, relation) and the remainder after the match. -/
def matchLinkAt (l : List Char) : Option ((String × String) × List Char) :=
  match l with
  | [] => none
  | c :: rest =>
    if c = '<' then
      match splitAtChar '>' rest with
      | none => none
      | some (cap, rest2) =>
        if cap = [] then none
        else
          match rest2 with
          | [] => none
          | d :: rest3 =>
            if d = ';' then
              if (rest3.dropWhile isRegexSpace).take 5 = ['r', 'e', 'l', '=', '"'] then
                match splitAtChar '"' ((rest3.dropWhile isRegexSpace).drop 5) with
                | none => none
                | some (rel, rest5) =>
                  if rel = [] then none
                  else some ((String.mk cap, String.mk rel), rest5)
              else none
            else none
    else none

theorem matchLinkAt_lt :
    ∀ l m after, matchLinkAt l = some (m, after) → after.length < l.length := by
  intro l m after h
  unfold matchLinkAt at h
  split at h
  · cases h
  next c rest =>
    split at h <;> try cases h
    split at h <;> try cases h
    next cap rest2 hsplit =>
      have hlt2 : rest2.length < rest.length := splitAtChar_snd_lt '>' rest cap rest2 hsplit
      split at h <;> try cases h
      split at h <;> try cases h
      next d rest3 =>
        split at h <;> try cases h
        split at h <;> try cases h
        split at h <;> try cases h
        next rel rest5 hsplit2 =>
          split at h <;> try cases h
          have h5 : after.length < ((rest3.dropWhile isRegexSpace).drop 5).length :=
            splitAtChar_snd_lt '"' _ rel after hsplit2
          have h6 : ((rest3.dropWhile isRegexSpace).drop 5).length ≤ rest3.length := by
            have := dropWhile_length_le isRegexSpace rest3
            simp only [List.length_drop]
            omega
          have h7 : (d :: rest3).length = rest3.length + 1 := by simp
          simp only [List.length_cons]
          omega

/-- The scan underlying `findAllLinks`: at each position try an anchored
match, emit it and continue after it, otherwise advance one character. The
fuel argument only serves structural recursion; one unit is spent per
character position, so any fuel of at least `l.length` yields the same
value (`findAllLinksGo_fuel`). -/
def findAllLinksGo : Nat → List Char → List (String × String)
  | 0, _ => []
  | _ + 1, [] => []
  | fuel + 1, c :: rest =>
    match matchLinkAt (c :: rest) with
    | some (m, after) => m :: findAllLinksGo fuel after
    | none => findAllLinksGo fuel rest

/-- All non-overlapping leftmost matches of `linkRE`, in order:
`linkRE.FindAllStringSubmatch(s, -1)` restricted to the two captures. -/
def findAllLinks (l : List Char) : List (String × String) :=
  findAllLinksGo l.length l

theorem findAllLinksGo_fuel :
    ∀ n l fuel fuel', l.length ≤ n → l.length ≤ fuel → l.length ≤ fuel' →
      findAllLinksGo fuel l = findAllLinksGo fuel' l := by
  intro n
  induction n with
  | zero =>
    intro l fuel fuel' hn _ _
    match l with
    | [] =>
      match fuel, fuel' with
      | 0, 0 => rfl
      | 0, _ + 1 => rfl
      | _ + 1, 0 => rfl
      | _ + 1, _ + 1 => rfl
    | c :: rest => simp at hn
  | succ n ih =>
    intro l fuel fuel' hn hf hf'
    match l with
    | [] =>
      match fuel, fuel' with
      | 0, 0 => rfl
      | 0, _ + 1 => rfl
      | _ + 1, 0 => rfl
      | _ + 1, _ + 1 => rfl
    | c :: rest =>
      match fuel, fuel' with
      | f + 1, f' + 1 =>
        simp only [findAllLinksGo]
        have hlen : rest.length + 1 = (c :: rest).length := by simp
        cases hm : matchLinkAt (c :: rest) with
        | some p =>
          obtain ⟨m, after⟩ := p
          have hlt := matchLinkAt_lt _ m after hm
          have h1 : after.length ≤ n := by simp only [List.length_cons] at hlt hn; omega
          have h2 : after.length ≤ f := by simp only [List.length_cons] at hlt hf; omega
          have h3 : after.length ≤ f' := by simp only [List.length_cons] at hlt hf'; omega
          show m :: findAllLinksGo f after = m :: findAllLinksGo f' after
          rw [ih after f f' h1 h2 h3]
        | none =>
          have h1 : rest.length ≤ n := by simp only [List.length_cons] at hn; omega
          have h2 : rest.length ≤ f := by simp only [List.length_cons] at hf; omega
          have h3 : rest.length ≤ f' := by simp only [List.length_cons] at hf'; omega
          show findAllLinksGo f rest = findAllLinksGo f' rest
          exact ih rest f f' h1 h2 h3

/-- Try to match `pageRE` anchored at the head of `l`; returns the digit
capture (possibly empty, as `\d*` permits). -/
def matchPageAt (l : List Char) : Option (List Char) :=
  match l with
  | [] => none
  | c :: rest =>
    if (c = '?' ∨ c = '&') ∧ rest.take 5 = ['p', 'a', 'g', 'e', '='] then
      some ((rest.drop 5).takeWhile Char.isDigit)
    else none

/-- Leftmost match of `pageRE`: `pageRE.FindStringSubmatch(url)`, reduced to
its digit capture (the match always has exactly 3 submatch entries, so the
`len(p) == 3` check in `nextPage` is equivalent to a match being found). -/
def findPageParam : List Char → Option (List Char)
  | [] => none
  | c :: rest =>
    match matchPageAt (c :: rest) with
    | some ds => some ds
    | none => findPageParam rest

/-- `strconv.Atoi` on a digit capture: fails on the empty string and on
64-bit overflow (sign handling is irrelevant, the capture is `\d*`). -/
def goAtoi (l : List Char) : Option Int :=
  if l = [] then none
  else if l.all Char.isDigit then
    let n : Nat := l.foldl (fun acc c => acc * 10 + (c.toNat - 48)) 0
    if n ≤ 9223372036854775807 then some (n : Int) else none
  else none

/-- Whether `jsonTypeRE` matches anywhere in the content type. -/
def jsonTypeAt (l : List Char) : Bool :=
  match l with
  | [] => false
  | c :: rest =>
    (c == '/' || c == '+') && rest.take 4 == ['j', 's', 'o', 'n'] &&
      (rest.drop 4 == [] || (rest.drop 4).head? == some ';')

/-- `jsonTypeRE.MatchString` (searcher.go line 21). -/
def jsonTypeMatch (s : String) : Bool :=
  s.data.tails.any jsonTypeAt

example : jsonTypeMatch "application/json; charset=utf-8" = true := by decide
example : jsonTypeMatch "application/vnd.github.v3+json" = true := by decide
example : jsonTypeMatch "text/plain" = false := by decide
example : jsonTypeMatch "text/html; charset=utf-8" = false := by decide

/-! ## Data model (pkg/search) -/

/-- A searched item; the full Repository record is a passthrough value
object whose fields carry no logic inside the core, so it is represented by
its identity alone. -/
structure Repository where
  id : Int
deriving DecidableEq

/-- search.RepositoriesResult. -/
structure RepositoriesResult where
  IncompleteResults : Bool
  Items : List Repository
  Total : Int
deriving DecidableEq

/-- The capability set of the search.Qualifier interface: presence check
(IsSet), provider-facing key (Key), rendered value (Str for String()). -/
structure Qualifier where
  IsSet : Bool
  Key : String
  Str : String
deriving DecidableEq

/-- search.Parameter, an alias of Qualifier in the source. -/
abbrev Parameter := Qualifier

/-- search.Query. `Qualifiers` is `map[string]Qualifier` in the source and
is modelled by the list of its values; any iteration order the Go runtime
may choose is a permutation of this list, which the theorems below
quantify over where order matters. -/
structure Query where
  Keywords : List String
  Kind : String
  Limit : Int
  Order : Parameter
  Page : Int
  Qualifiers : List Qualifier
  «Sort» : Parameter
deriving DecidableEq

/-- An unset parameter (zero value used by callers that set no sort/order). -/
def unsetParam : Parameter := { IsSet := false, Key := "", Str := "" }

/-! ## Query compilation (searcher.go: quoteKeyword/quoteKeywords,
quoteQualifier, listSet, QueryString) -/

/-- quoteKeyword (searcher.go lines 148-157): quote a keyword that contains
a character from the cutset; when it also contains a colon, split at the
first colon and quote only the value part. (The source checks
`strings.Contains(k, ":")` and then calls `strings.SplitN(k, ":", 2)`;
`splitAtChar` succeeds exactly when the colon is present.) -/
def quoteKeyword (k : String) : String :=
  if containsAnySpecial k then
    match splitAtChar ':' k.data with
    | some (key, val) => String.mk key ++ ":" ++ goQuote (String.mk val)
    | none => goQuote k
  else k

/-- quoteKeywords (searcher.go lines 141-146). The Go loop writes
`ks[i] = quoteKeyword(k)` into the argument slice: the returned list is
also what the caller's slice holds afterwards (see `QueryStringRun`). -/
def quoteKeywords (ks : List String) : List String :=
  ks.map quoteKeyword

/-- quoteQualifier (searcher.go lines 159-164). -/
def quoteQualifier (q : String) : String :=
  if containsAnySpecial q then goQuote q else q

/-- Insertion into the `map[string]string` built by listSet: overwrite the
value when the key is present, append otherwise. -/
def insertKV (m : List (String × String)) (k v : String) : List (String × String) :=
  if m.any (fun p => p.1 = k) then m.map (fun p => if p.1 = k then (k, v) else p)
  else m ++ [(k, v)]

/-- listSet (searcher.go lines 166-174): the map from each set qualifier's
Key() to its String(), represented as an association list in insertion
order. Go iterates the resulting map in an unspecified order; renderings
below are therefore parameterised by an enumeration of these entries. -/
def listSet (qs : List Qualifier) : List (String × String) :=
  qs.foldl (fun m q => if q.IsSet then insertKV m q.Key q.Str else m) []

/-- QueryString (searcher.go lines 115-124), parameterised by the order in
which `for k, v := range listSet(query.Qualifiers)` enumerates the map:
the joined quoted keywords followed by one " key:value" per entry. -/
def QueryStringWith (q : Query) (entries : List (String × String)) : String :=
  entries.foldl (fun acc kv => acc ++ " " ++ kv.1 ++ ":" ++ quoteQualifier kv.2)
    (String.intercalate " " (quoteKeywords q.Keywords))

/-- QueryString under the canonical (insertion-order) enumeration. -/
def QueryString (q : Query) : String :=
  QueryStringWith q (listSet q.Qualifiers)

/-- The full observable behaviour of one QueryString call: the rendered
string together with the caller's Query afterwards. The Keywords update
models the in-place writes of quoteKeywords into the shared slice backing
array. -/
def QueryStringRun (q : Query) (entries : List (String × String)) : String × Query :=
  (QueryStringWith q entries, { q with Keywords := quoteKeywords q.Keywords })

/-! ## Error translation (searcher.go: httpError, handleHTTPError) -/

/-- The parts of a `*url.URL` the error path reads: its String() rendering
and the parsed query parameters (`Query()` on the raw query). -/
structure GoURL where
  render : String
  queryParams : List (String × String)
deriving DecidableEq

/-- `u.Query().Get(key)`: first value for the key, "" when absent. -/
def GoURL.getQuery (u : GoURL) (key : String) : String :=
  match u.queryParams.find? (fun p => p.1 = key) with
  | some p => p.2
  | none => ""

/-- httpErrorItem (searcher.go lines 183-188). -/
structure httpErrorItem where
  Code : String
  Field : String
  Message : String
  Resource : String
deriving DecidableEq

/-- httpError (searcher.go lines 176-181). -/
structure httpError where
  Errors : List httpErrorItem
  Message : String
  RequestURL : GoURL
  StatusCode : Int
deriving DecidableEq

/-- httpError.Error (searcher.go lines 190-196). For a 422 the source
indexes `err.Errors[0]`; with an empty Errors slice that indexing panics,
modelled as `none`. -/
def httpError.Error (err : httpError) : Option String :=
  if err.StatusCode ≠ 422 then
    some ("HTTP " ++ toString err.StatusCode ++ ": " ++ err.Message ++ " (" ++
      err.RequestURL.render ++ ")")
  else
    match err.Errors with
    | [] => none
    | it :: _ =>
      some ("Invalid search query " ++ goQuote (goTrimSpace (err.RequestURL.getQuery "q")) ++
        ".\n" ++ it.Message)

/-- Result of a JSON decode (`json.Unmarshal` / `json.Decoder.Decode`):
either the decode error or the decoded value. -/
inductive Decoded (α : Type) where
  | failed (e : String)
  | ok (v : α)
deriving DecidableEq

/-- The error body shape the translator unmarshals (`message` plus
optional `errors`). -/
structure ErrorBody where
  Message : String
  Errors : List httpErrorItem
deriving DecidableEq

/-- The parts of an `*http.Response` the core reads: status code, status
line, Content-Type and Link headers, the request URL, and the two possible
decodings of the body (as an error body, and as a result page). Each
`Decoded` field is the outcome `json.Unmarshal`/`Decode` would produce on
the body bytes, so a translator that never reads the body is one whose
output is independent of both fields. -/
structure HttpResponse where
  statusCode : Int
  status : String
  contentType : String
  linkHeader : String
  requestURL : GoURL
  errorBody : Decoded ErrorBody
  pageBody : Decoded RepositoriesResult
deriving DecidableEq

/-- The error value of a failed exchange (Go `error`): a transport error
surfaced unchanged, a JSON read/decode error surfaced unchanged, or the
structured httpError. -/
inductive GoError where
  | transport (e : String)
  | jsonErr (e : String)
  | httpErr (e : httpError)
deriving DecidableEq

/-- handleHTTPError (searcher.go lines 198-215). -/
def handleHTTPError (resp : HttpResponse) : GoError :=
  if jsonTypeMatch resp.contentType = false then
    .httpErr { Errors := [], Message := resp.status, RequestURL := resp.requestURL,
               StatusCode := resp.statusCode }
  else
    match resp.errorBody with
    | .failed e => .jsonErr e
    | .ok d => .httpErr { Errors := d.Errors, Message := d.Message,
                          RequestURL := resp.requestURL, StatusCode := resp.statusCode }

/-! ## Pagination (searcher.go: nextPage, search, Repositories) -/

/-- maxPerPage (searcher.go line 17). -/
def maxPerPage : Int := 100

/-- nextPage (searcher.go lines 59-77). The argument is the previous
response, reduced to its Link header (`none` models a nil `*http.Response`,
for which the function returns page 1). For a response, every `linkRE`
match is visited in order; each `next` relation whose URL contains a
parseable `page` query parameter overwrites the result, which starts at 0
(the exhaustion signal). -/
def nextPage (resp : Option String) : Int :=
  match resp with
  | none => 1
  | some link =>
    (findAllLinks link.data).foldl
      (fun page m =>
        if m.2 = "next" then
          match findPageParam m.1.data with
          | some ds =>
            match goAtoi ds with
            | some i => i
            | none => page
          | none => page
        else page) 0

example :
    nextPage (some "<https://api.github.com/search/repositories?q=cli&page=2&per_page=100>; rel=\"next\", <https://api.github.com/search/repositories?q=cli&page=5&per_page=100>; rel=\"last\"") = 2 := by
  decide

example : nextPage (some "") = 0 := by decide

example : nextPage none = 1 := by decide

/-- The provider side of one HTTP exchange: either a transport error from
`client.Do` or a response. The provider is a function of the issued Query
(whose Page and Limit fields the loop sets per request). -/
inductive SearchResult where
  | transportErr (e : String)
  | response (resp : HttpResponse)
deriving DecidableEq

/-- What `searcher.search` (searcher.go lines 79-113) returns to the loop:
on any error the `(resp, err)` pair with the page result untouched, on
success the response and the decoded page. -/
inductive CallResult where
  | err (resp : Option HttpResponse) (e : GoError)
  | ok (resp : HttpResponse) (page : RepositoriesResult)
deriving DecidableEq

/-- searcher.search: issue the request, translate a non-2xx status via
handleHTTPError, otherwise decode the body into a page. -/
def searchCall (provider : Query → SearchResult) (q : Query) : CallResult :=
  match provider q with
  | .transportErr e => .err none (.transport e)
  | .response resp =>
    if 200 ≤ resp.statusCode ∧ resp.statusCode < 300 then
      match resp.pageBody with
      | .failed e => .err (some resp) (.jsonErr e)
      | .ok page => .ok resp page
    else .err (some resp) (handleHTTPError resp)

/-- The loop state of Repositories: the threaded Query (whose Page, Limit
and Keywords change between iterations), the accumulated result, the
remaining item count `toRetrieve`, and the previous response's Link header
(`none` before the first request, matching the nil `resp`). -/
structure FetchState where
  query : Query
  result : RepositoriesResult
  toRetrieve : Int
  prevLink : Option String
deriving DecidableEq

/-- One iteration of the `for toRetrieve > 0` loop of Repositories
(searcher.go lines 40-55): loop exit (`stop`), abort on error (`fail`,
with the request that failed), or continue with the merged state (`cont`,
with the request issued and the page merged). The Keywords of the threaded
query become their quoted forms because QueryString writes them back into
the shared slice while rendering the request's `q` parameter. -/
inductive StepOut where
  | stop (res : RepositoriesResult)
  | fail (res : RepositoriesResult) (e : GoError) (req : Int × Int)
  | cont (st : FetchState) (req : Int × Int) (pg : RepositoriesResult)
deriving DecidableEq

def fetchStep (provider : Query → SearchResult) (st : FetchState) : StepOut :=
  if st.toRetrieve > 0 then
    let lim := min st.toRetrieve maxPerPage
    let page := nextPage st.prevLink
    if page = 0 then .stop st.result
    else
      let q := { st.query with Limit := lim, Page := page }
      match searchCall provider q with
      | .err _ e => .fail st.result e (page, lim)
      | .ok resp pg =>
        .cont
          { query := { q with Keywords := quoteKeywords q.Keywords },
            result := { IncompleteResults := pg.IncompleteResults, Total := pg.Total,
                        Items := st.result.Items ++ pg.Items },
            toRetrieve := st.toRetrieve - pg.Items.length,
            prevLink := some resp.linkHeader }
          (page, lim) pg
  else .stop st.result

/-- Outcome of a fetch, instrumented with the trace of issued requests
(page, per_page pairs) and of merged pages. `outOfFuel` marks a run whose
loop did not terminate within the given fuel. -/
inductive FetchOutcome where
  | success (res : RepositoriesResult) (requests : List (Int × Int))
      (pages : List RepositoriesResult)
  | failure (res : RepositoriesResult) (e : GoError) (requests : List (Int × Int))
      (pages : List RepositoriesResult)
  | outOfFuel
deriving DecidableEq

/-- The Repositories loop (searcher.go lines 35-57), one fuel unit per
iteration. -/
def runFetch (provider : Query → SearchResult) :
    Nat → FetchState → List (Int × Int) → List RepositoriesResult → FetchOutcome
  | 0, _, _, _ => .outOfFuel
  | fuel + 1, st, reqs, pages =>
    match fetchStep provider st with
    | .stop res => .success res reqs pages
    | .fail res e req => .failure res e (reqs ++ [req]) pages
    | .cont st' req pg => runFetch provider fuel st' (reqs ++ [req]) (pages ++ [pg])

/-- The initial loop state: empty result (Go zero value), `toRetrieve`
initialised to the caller's limit, no previous response. -/
def fetchInit (q : Query) : FetchState :=
  { query := q, result := { IncompleteResults := false, Items := [], Total := 0 },
    toRetrieve := q.Limit, prevLink := none }

/-- searcher.Repositories, run from the caller's query. -/
def Repositories (provider : Query → SearchResult) (fuel : Nat) (q : Query) : FetchOutcome :=
  runFetch provider fuel (fetchInit q) [] []

/-- Projections of an outcome used in the statements below. -/
def FetchOutcome.requests : FetchOutcome → List (Int × Int)
  | .success _ r _ => r
  | .failure _ _ r _ => r
  | .outOfFuel => []

def FetchOutcome.resultOf : FetchOutcome → RepositoriesResult
  | .success res _ _ => res
  | .failure res _ _ _ => res
  | .outOfFuel => { IncompleteResults := false, Items := [], Total := 0 }

def FetchOutcome.isSuccess : FetchOutcome → Bool
  | .success _ _ _ => true
  | _ => false

/-- The requested page size of the step's request, when one is issued. -/
def StepOut.reqPerPage : StepOut → Option Int
  | .stop _ => none
  | .fail _ _ req => some req.2
  | .cont _ req _ => some req.2

/-- The remaining count after a continuing step. -/
def StepOut.contRemaining : StepOut → Option Int
  | .cont st _ _ => some st.toRetrieve
  | _ => none

/-- The number of items the merged page carried, for a continuing step. -/
def StepOut.contItems : StepOut → Option Nat
  | .cont _ _ pg => some pg.Items.length
  | _ => none

/-! ## Concrete scenarios -/

/-- A request URL stand-in for success responses (the loop never reads it). -/
def emptyURL : GoURL := { render := "", queryParams := [] }

/-- `len` distinct repositories with ids `start, start+1, ...`. -/
def mkItems (start len : Nat) : List Repository :=
  (List.range len).map (fun i => { id := ((start + i : Nat) : Int) })

/-- A 2xx JSON response carrying a result page and a Link header. -/
def okResp (link : String) (items : List Repository) (total : Int) : HttpResponse :=
  { statusCode := 200, status := "200 OK",
    contentType := "application/json; charset=utf-8",
    linkHeader := link, requestURL := emptyURL,
    errorBody := .failed "not an error body",
    pageBody := .ok { IncompleteResults := false, Items := items, Total := total } }

/-- A Link header advertising page `n` as the next relation. -/
def linkNext (n : Nat) : String :=
  "<https://api.github.com/search/repositories?q=cli&page=" ++ toString n ++
    "&per_page=100>; rel=\"next\""

/-- A caller query with the given limit (keywords and qualifiers as a
typical `gh search repos cli` invocation). -/
def baseQuery (limit : Int) : Query :=
  { Keywords := ["cli"], Kind := "repositories", Limit := limit, Order := unsetParam,
    Page := 0, Qualifiers := [], «Sort» := unsetParam }

/-- C2 scenario provider: 100 items on pages 1 and 2 (with a next link),
50 on page 3. -/
def c2provider (q : Query) : SearchResult :=
  if q.Page = 1 then .response (okResp (linkNext 2) (mkItems 0 100) 300)
  else if q.Page = 2 then .response (okResp (linkNext 3) (mkItems 100 100) 300)
  else if q.Page = 3 then .response (okResp "" (mkItems 200 50) 300)
  else .transportErr "unexpected request"

example : (Repositories c2provider 10 (baseQuery 250)).requests =
    [(1, 100), (2, 100), (3, 50)] := by decide

example : (Repositories c2provider 10 (baseQuery 250)).resultOf.Items.length = 250 := by
  decide

example : (Repositories c2provider 10 (baseQuery 250)).isSuccess = true := by decide

/-- C1 scenario provider: page 1 succeeds with 2 items and a next link,
page 2 dies with a transport error. -/
def c1provider (q : Query) : SearchResult :=
  if q.Page = 1 then .response (okResp (linkNext 2) (mkItems 0 2) 42)
  else .transportErr "connection reset"

/-- C8 witness provider: one constant 2xx response with a single item and
no Link header. -/
def c8resp : HttpResponse := okResp "" (mkItems 0 1) 7

def c8provider (_ : Query) : SearchResult := .response c8resp

/-- C10 scenario provider: every response is a 2xx page with zero items
and a next link, so `toRetrieve` never decreases. -/
def divProvider (_ : Query) : SearchResult := .response (okResp (linkNext 2) [] 0)

/-- The loop state reached after the first iteration against
`divProvider`, and again after every following iteration with `Page = 2`:
a fixed point of `fetchStep`. -/
def divState1 : FetchState :=
  { query := { baseQuery 30 with Limit := 30, Page := 1 },
    result := { IncompleteResults := false, Items := [], Total := 0 },
    toRetrieve := 30, prevLink := some (linkNext 2) }

def divState2 : FetchState :=
  { query := { baseQuery 30 with Limit := 30, Page := 2 },
    result := { IncompleteResults := false, Items := [], Total := 0 },
    toRetrieve := 30, prevLink := some (linkNext 2) }

example : fetchStep divProvider (fetchInit (baseQuery 30)) =
    .cont divState1 (1, 30) { IncompleteResults := false, Items := [], Total := 0 } := by
  decide

example : fetchStep divProvider divState1 =
    .cont divState2 (2, 30) { IncompleteResults := false, Items := [], Total := 0 } := by
  decide

example : fetchStep divProvider divState2 =
    .cont divState2 (2, 30) { IncompleteResults := false, Items := [], Total := 0 } := by
  decide

/-! ## Helper lemmas about quoting -/

theorem data_append (a b : String) : (a ++ b).data = a.data ++ b.data :=
  String.data_append a b

theorem goQuoteChar_simple (c : Char) (h1 : c ≠ '"') (h2 : c ≠ '\\')
    (h3 : 32 ≤ c.toNat) (h4 : c.toNat ≤ 126) : goQuoteChar c = [c] := by
  have e7 : c ≠ Char.ofNat 7 := by intro hc; rw [hc] at h3; exact absurd h3 (by decide)
  have e8 : c ≠ Char.ofNat 8 := by intro hc; rw [hc] at h3; exact absurd h3 (by decide)
  have e12 : c ≠ Char.ofNat 12 := by intro hc; rw [hc] at h3; exact absurd h3 (by decide)
  have en : c ≠ '\n' := by intro hc; rw [hc] at h3; exact absurd h3 (by decide)
  have er : c ≠ '\r' := by intro hc; rw [hc] at h3; exact absurd h3 (by decide)
  have et : c ≠ '\t' := by intro hc; rw [hc] at h3; exact absurd h3 (by decide)
  have e11 : c ≠ Char.ofNat 11 := by intro hc; rw [hc] at h3; exact absurd h3 (by decide)
  have elast : ¬(c.toNat < 32 ∨ c.toNat = 127) := by omega
  simp only [goQuoteChar, if_neg h1, if_neg h2, if_neg e7, if_neg e8, if_neg e12,
    if_neg en, if_neg er, if_neg et, if_neg e11, if_neg elast]

/-- A character that survives `%q` unchanged: printable ASCII other than
the quote and the backslash. -/
def simpleChar (c : Char) : Prop :=
  c ≠ '"' ∧ c ≠ '\\' ∧ 32 ≤ c.toNat ∧ c.toNat ≤ 126

instance (c : Char) : Decidable (simpleChar c) := by
  unfold simpleChar; infer_instance

theorem flatten_map_goQuoteChar (l : List Char) (h : ∀ c ∈ l, simpleChar c) :
    (l.map goQuoteChar).flatten = l := by
  induction l with
  | nil => rfl
  | cons c rest ih =>
    have hc : simpleChar c := h c (by simp)
    simp only [List.map_cons, List.flatten_cons]
    rw [goQuoteChar_simple c hc.1 hc.2.1 hc.2.2.1 hc.2.2.2,
      ih (fun d hd => h d (List.mem_cons_of_mem _ hd))]
    rfl

theorem goQuote_simple (s : String) (h : ∀ c ∈ s.data, simpleChar c) :
    (goQuote s).data = '"' :: s.data ++ ['"'] := by
  unfold goQuote
  rw [show (String.mk ('"' :: (s.data.map goQuoteChar).flatten ++ ['"'])).data =
    '"' :: (s.data.map goQuoteChar).flatten ++ ['"'] from rfl]
  rw [flatten_map_goQuoteChar s.data h]

theorem goQuote_head (s : String) : (goQuote s).data.head? = some '"' := rfl

theorem goQuote_last (s : String) : (goQuote s).data.getLast? = some '"' := by
  unfold goQuote
  show ('"' :: (s.data.map goQuoteChar).flatten ++ ['"']).getLast? = some '"'
  rw [show '"' :: (s.data.map goQuoteChar).flatten ++ ['"'] =
    ('"' :: (s.data.map goQuoteChar).flatten) ++ ['"'] by simp]
  exact List.getLast?_concat _

theorem goTrimSpace_simple (s : String)
    (h2 : ∀ c ∈ s.data, isGoSpace c = false) : goTrimSpace s = s := by
  unfold goTrimSpace
  have hfwd : s.data.dropWhile isGoSpace = s.data := by
    cases hd : s.data with
    | nil => rfl
    | cons c rest =>
      rw [List.dropWhile_cons_of_neg]
      simp [h2 c (by rw [hd]; simp)]
  rw [hfwd]
  have hrev : s.data.reverse.dropWhile isGoSpace = s.data.reverse := by
    cases hd : s.data.reverse with
    | nil => rfl
    | cons c rest =>
      rw [List.dropWhile_cons_of_neg]
      have : c ∈ s.data := by
        rw [← List.mem_reverse, hd]; simp
      simp [h2 c this]
  rw [hrev, List.reverse_reverse]

/-! ## Inversion and invariant lemmas for the fetch loop -/

theorem runFetch_zero (provider : Query → SearchResult) (st : FetchState)
    (reqs : List (Int × Int)) (pages : List RepositoriesResult) :
    runFetch provider 0 st reqs pages = .outOfFuel := rfl

theorem runFetch_succ (provider : Query → SearchResult) (fuel : Nat) (st : FetchState)
    (reqs : List (Int × Int)) (pages : List RepositoriesResult) :
    runFetch provider (fuel + 1) st reqs pages =
      match fetchStep provider st with
      | .stop res => .success res reqs pages
      | .fail res e req => .failure res e (reqs ++ [req]) pages
      | .cont st' req pg => runFetch provider fuel st' (reqs ++ [req]) (pages ++ [pg]) := rfl

theorem searchCall_ok (provider : Query → SearchResult) (q : Query) (resp : HttpResponse)
    (pg : RepositoriesResult) (h : searchCall provider q = .ok resp pg) :
    provider q = .response resp ∧ 200 ≤ resp.statusCode ∧ resp.statusCode < 300 ∧
      resp.pageBody = .ok pg := by
  unfold searchCall at h
  split at h
  · cases h
  next r hr =>
    split at h
    case isTrue h2xx =>
      split at h
      · cases h
      next page hpage =>
        cases h
        exact ⟨hr, h2xx.1, h2xx.2, hpage⟩
    case isFalse => cases h

theorem fetchStep_stop_inv (provider : Query → SearchResult) (st : FetchState)
    (res : RepositoriesResult) (h : fetchStep provider st = .stop res) : res = st.result := by
  simp only [fetchStep] at h
  split at h
  · split at h
    · cases h; rfl
    · split at h <;> cases h
  · cases h; rfl

theorem fetchStep_fail_inv (provider : Query → SearchResult) (st : FetchState)
    (res : RepositoriesResult) (e : GoError) (req : Int × Int)
    (h : fetchStep provider st = .fail res e req) :
    res = st.result ∧ 0 < st.toRetrieve ∧ nextPage st.prevLink ≠ 0 ∧
      req = (nextPage st.prevLink, min st.toRetrieve maxPerPage) := by
  simp only [fetchStep] at h
  split at h
  case isTrue hpos =>
    split at h
    · cases h
    case isFalse hz =>
      split at h
      · cases h
        exact ⟨rfl, hpos, hz, rfl⟩
      · cases h
  case isFalse => cases h

/-- The query a loop iteration issues from state `st`: the threaded query
with its Limit set to `min(toRetrieve, maxPerPage)` and its Page set from
the previous response's Link header. -/
def issuedQuery (st : FetchState) : Query :=
  { st.query with Limit := min st.toRetrieve maxPerPage, Page := nextPage st.prevLink }

theorem fetchStep_cont_inv (provider : Query → SearchResult) (st st' : FetchState)
    (req : Int × Int) (pg : RepositoriesResult)
    (h : fetchStep provider st = .cont st' req pg) :
    0 < st.toRetrieve ∧ nextPage st.prevLink ≠ 0 ∧
    req = (nextPage st.prevLink, min st.toRetrieve maxPerPage) ∧
    st'.toRetrieve = st.toRetrieve - pg.Items.length ∧
    st'.result.Items = st.result.Items ++ pg.Items ∧
    st'.result.Total = pg.Total ∧
    st'.result.IncompleteResults = pg.IncompleteResults ∧
    ∃ resp, searchCall provider (issuedQuery st) = .ok resp pg ∧
      st'.prevLink = some resp.linkHeader := by
  simp only [fetchStep] at h
  split at h
  case isTrue hpos =>
    split at h
    · cases h
    case isFalse hz =>
      split at h
      · cases h
      next resp pg' hcall =>
        cases h
        exact ⟨hpos, hz, rfl, rfl, rfl, rfl, rfl, resp, hcall, rfl⟩
  case isFalse => cases h

theorem fetchStep_reqPerPage (provider : Query → SearchResult) (st : FetchState) :
    (fetchStep provider st).reqPerPage =
      if 0 < st.toRetrieve ∧ nextPage st.prevLink ≠ 0
      then some (min st.toRetrieve maxPerPage) else none := by
  by_cases hpos : st.toRetrieve > 0
  · by_cases hz : nextPage st.prevLink = 0
    · simp only [fetchStep, if_pos hpos, if_pos hz]
      rw [if_neg (fun hcon => hcon.2 hz)]
      rfl
    · simp only [fetchStep, if_pos hpos, if_neg hz]
      rw [if_pos ⟨hpos, hz⟩]
      split <;> rfl
  · simp only [fetchStep, if_neg hpos]
    rw [if_neg (fun hcon => hpos hcon.1)]
    rfl

theorem fetchStep_remaining (provider : Query → SearchResult) (st : FetchState) :
    (fetchStep provider st).contRemaining =
      (fetchStep provider st).contItems.map (fun n => st.toRetrieve - (n : Int)) := by
  by_cases hpos : st.toRetrieve > 0
  · by_cases hz : nextPage st.prevLink = 0
    · simp only [fetchStep, if_pos hpos, if_pos hz]
      rfl
    · simp only [fetchStep, if_pos hpos, if_neg hz]
      split <;> rfl
  · simp only [fetchStep, if_neg hpos]
    rfl

/-- A provider that never returns more items than the requested page size
(for requests with a positive page size, the only kind the loop issues). -/
def HonestProvider (provider : Query → SearchResult) : Prop :=
  ∀ q resp pg, 0 < q.Limit → provider q = .response resp → 200 ≤ resp.statusCode →
    resp.statusCode < 300 → resp.pageBody = .ok pg → (pg.Items.length : Int) ≤ q.Limit

theorem runFetch_items_le (provider : Query → SearchResult) (H : HonestProvider provider) :
    ∀ fuel st reqs pages res reqs' pages',
      runFetch provider fuel st reqs pages = .success res reqs' pages' →
      (res.Items.length : Int) ≤ (st.result.Items.length : Int) + max st.toRetrieve 0 := by
  intro fuel
  induction fuel with
  | zero =>
    intro st reqs pages res reqs' pages' h
    rw [runFetch_zero] at h
    cases h
  | succ fuel ih =>
    intro st reqs pages res reqs' pages' h
    rw [runFetch_succ] at h
    cases hstep : fetchStep provider st with
    | stop r =>
      rw [hstep] at h
      cases h
      have hr := fetchStep_stop_inv provider st _ hstep
      have h0 : (0 : Int) ≤ max st.toRetrieve 0 := le_max_right _ _
      rw [hr]
      linarith
    | fail r e req => rw [hstep] at h; cases h
    | cont st' req pg =>
      rw [hstep] at h
      have IH := ih st' (reqs ++ [req]) (pages ++ [pg]) res reqs' pages' h
      obtain ⟨hpos, hz, hreq, ht, hitems, htot, hinc, resp, hcall, hlink⟩ :=
        fetchStep_cont_inv provider st st' req pg hstep
      have hok := searchCall_ok provider _ resp pg hcall
      have hlim : (0 : Int) < min st.toRetrieve maxPerPage := by
        unfold maxPerPage
        omega
      have hhon := H _ resp pg hlim hok.1 hok.2.1 hok.2.2.1 hok.2.2.2
      have hn : (pg.Items.length : Int) ≤ st.toRetrieve :=
        le_trans hhon (min_le_left _ _)
      have hlen : st'.result.Items.length = st.result.Items.length + pg.Items.length := by
        rw [hitems, List.length_append]
      have hmax1 : max st'.toRetrieve 0 = st.toRetrieve - (pg.Items.length : Int) := by
        rw [ht]
        exact max_eq_left (by omega)
      have hmax2 : max st.toRetrieve 0 = st.toRetrieve := max_eq_left (le_of_lt hpos)
      rw [hlen, hmax1] at IH
      rw [hmax2]
      push_cast at IH ⊢
      linarith

theorem runFetch_total_last (provider : Query → SearchResult) :
    ∀ fuel st reqs pages res reqs' pages',
      runFetch provider fuel st reqs pages = .success res reqs' pages' →
      (pages' = pages ∧ res = st.result) ∨
      (∃ p, pages'.getLast? = some p ∧ res.Total = p.Total ∧
        res.IncompleteResults = p.IncompleteResults) := by
  intro fuel
  induction fuel with
  | zero =>
    intro st reqs pages res reqs' pages' h
    rw [runFetch_zero] at h
    cases h
  | succ fuel ih =>
    intro st reqs pages res reqs' pages' h
    rw [runFetch_succ] at h
    cases hstep : fetchStep provider st with
    | stop r =>
      rw [hstep] at h
      cases h
      exact Or.inl ⟨rfl, fetchStep_stop_inv provider st _ hstep⟩
    | fail r e req => rw [hstep] at h; cases h
    | cont st' req pg =>
      rw [hstep] at h
      obtain ⟨hpos, hz, hreq, ht, hitems, htot, hinc, resp, hcall, hlink⟩ :=
        fetchStep_cont_inv provider st st' req pg hstep
      rcases ih st' (reqs ++ [req]) (pages ++ [pg]) res reqs' pages' h with
        ⟨hp, hr⟩ | ⟨p, hlast, h1, h2⟩
      · right
        refine ⟨pg, ?_, ?_, ?_⟩
        · rw [hp]
          exact List.getLast?_concat _
        · rw [hr, htot]
        · rw [hr, hinc]
      · exact Or.inr ⟨p, hlast, h1, h2⟩

theorem runFetch_failure_inv (provider : Query → SearchResult) :
    ∀ fuel st reqs pages res e reqs' pages',
      runFetch provider fuel st reqs pages = .failure res e reqs' pages' →
      (st.result.Items = (pages.map RepositoriesResult.Items).flatten →
        res.Items = (pages'.map RepositoriesResult.Items).flatten) ∧
      (reqs.length = pages.length → reqs'.length = pages'.length + 1) := by
  intro fuel
  induction fuel with
  | zero =>
    intro st reqs pages res e reqs' pages' h
    rw [runFetch_zero] at h
    cases h
  | succ fuel ih =>
    intro st reqs pages res e reqs' pages' h
    rw [runFetch_succ] at h
    cases hstep : fetchStep provider st with
    | stop r => rw [hstep] at h; cases h
    | fail r e' req =>
      rw [hstep] at h
      cases h
      have hr := fetchStep_fail_inv provider st _ _ _ hstep
      constructor
      · intro hin
        rw [hr.1, hin]
      · intro hin
        rw [List.length_append, hin]
        rfl
    | cont st' req pg =>
      rw [hstep] at h
      obtain ⟨hpos, hz, hreq, ht, hitems, htot, hinc, resp, hcall, hlink⟩ :=
        fetchStep_cont_inv provider st st' req pg hstep
      have IH := ih st' (reqs ++ [req]) (pages ++ [pg]) res e reqs' pages' h
      constructor
      · intro hin
        refine IH.1 ?_
        rw [hitems, hin]
        simp
      · intro hin
        refine IH.2 ?_
        simp [hin]

/-- A provider whose successful pages each carry at least one item or no
parseable next relation (the code's exhaustion signal `nextPage = 0`). -/
def GoodProvider (provider : Query → SearchResult) : Prop :=
  ∀ q resp pg, provider q = .response resp → 200 ≤ resp.statusCode →
    resp.statusCode < 300 → resp.pageBody = .ok pg →
    1 ≤ pg.Items.length ∨ nextPage (some resp.linkHeader) = 0

theorem runFetch_terminates (provider : Query → SearchResult) (H : GoodProvider provider) :
    ∀ (n : Nat) st reqs pages, st.toRetrieve ≤ (n : Int) →
      runFetch provider (n + 2) st reqs pages ≠ .outOfFuel := by
  intro n
  induction n with
  | zero =>
    intro st reqs pages hn h
    have hstep : fetchStep provider st = .stop st.result := by
      simp only [fetchStep]
      rw [if_neg (by omega)]
    rw [runFetch_succ, hstep] at h
    cases h
  | succ n ih =>
    intro st reqs pages hn h
    rw [runFetch_succ] at h
    cases hstep : fetchStep provider st with
    | stop r => rw [hstep] at h; cases h
    | fail r e req => rw [hstep] at h; cases h
    | cont st' req pg =>
      rw [hstep] at h
      obtain ⟨hpos, hz, hreq, ht, hitems, htot, hinc, resp, hcall, hlink⟩ :=
        fetchStep_cont_inv provider st st' req pg hstep
      have hok := searchCall_ok provider _ resp pg hcall
      rcases H _ resp pg hok.1 hok.2.1 hok.2.2.1 hok.2.2.2 with hone | hdone
      · have hle : st'.toRetrieve ≤ (n : Int) := by
          rw [ht]
          have : (1 : Int) ≤ (pg.Items.length : Int) := by exact_mod_cast hone
          push_cast at hn ⊢
          omega
        exact ih st' _ _ hle h
      · have hstep' : fetchStep provider st' = .stop st'.result := by
          simp only [fetchStep]
          by_cases hpos' : st'.toRetrieve > 0
          · rw [if_pos hpos', hlink, if_pos hdone]
          · rw [if_neg hpos']
        have h2 : runFetch provider (n + 2) st' (reqs ++ [req]) (pages ++ [pg]) =
          FetchOutcome.outOfFuel := h
        rw [runFetch_succ, hstep'] at h2
        cases h2

/-- An empty result page (the Go zero value of RepositoriesResult). -/
def emptyResult : RepositoriesResult := { IncompleteResults := false, Items := [], Total := 0 }

theorem div_loop :
    ∀ fuel reqs pages, runFetch divProvider fuel divState2 reqs pages = .outOfFuel := by
  intro fuel
  induction fuel with
  | zero => intro reqs pages; rfl
  | succ fuel ih =>
    intro reqs pages
    rw [runFetch_succ,
      show fetchStep divProvider divState2 = .cont divState2 (2, 30) emptyResult from by decide]
    exact ih _ _

theorem div_runs_forever :
    ∀ fuel, Repositories divProvider fuel (baseQuery 30) = .outOfFuel := by
  intro fuel
  cases fuel with
  | zero => rfl
  | succ fuel' =>
    cases fuel' with
    | zero => rfl
    | succ fuel'' =>
      show runFetch divProvider (fuel'' + 2) (fetchInit (baseQuery 30)) [] [] = .outOfFuel
      rw [runFetch_succ,
        show fetchStep divProvider (fetchInit (baseQuery 30)) =
          .cont divState1 (1, 30) emptyResult from by decide]
      show runFetch divProvider (fuel'' + 1) divState1 [(1, 30)] [emptyResult] = .outOfFuel
      rw [runFetch_succ,
        show fetchStep divProvider divState1 = .cont divState2 (2, 30) emptyResult from by decide]
      show runFetch divProvider fuel'' divState2 [(1, 30), (2, 30)]
        [emptyResult, emptyResult] = .outOfFuel
      exact div_loop fuel'' _ _

/-! ## Claim theorems -/

/-- The accumulated result at the point the C1 scenario fails: the two
items of page 1. -/
def c1page : RepositoriesResult :=
  { IncompleteResults := false, Items := mkItems 0 2, Total := 42 }

/-- C1 counterexample: the claim says the Result accompanying a non-nil
error carries no accumulated items, but when page 1 succeeds with 2 items
and page 2 fails, `Repositories` returns the error together with a Result
still holding those 2 items (`return result, err` returns the accumulator). -/
theorem c1_counterexample :
    Repositories c1provider 10 (baseQuery 100) =
      .failure c1page (.transport "connection reset") [(1, 100), (2, 98)] [c1page] ∧
    c1page.Items ≠ [] := by
  decide

/-- C1 (amended): on any page failure the fetch aborts immediately with
that error (exactly one more request than merged pages was issued), no
items from the failed page are merged, and the Result accompanying the
error carries exactly the items of the previously merged pages — partial
results are returned alongside the error, not discarded. -/
theorem c1_amended_abort (provider : Query → SearchResult) (q : Query) (fuel : Nat)
    (res : RepositoriesResult) (e : GoError) (reqs : List (Int × Int))
    (pages : List RepositoriesResult)
    (h : Repositories provider fuel q = .failure res e reqs pages) :
    res.Items = (pages.map RepositoriesResult.Items).flatten ∧
    reqs.length = pages.length + 1 := by
  have hh := runFetch_failure_inv provider fuel (fetchInit q) [] [] res e reqs pages h
  exact ⟨hh.1 rfl, hh.2 rfl⟩

/-- Witness for C1 (amended), at the concrete two-page scenario. -/
theorem c1_witness :
    Repositories c1provider 10 (baseQuery 100) =
      .failure c1page (.transport "connection reset") [(1, 100), (2, 98)] [c1page] ∧
    c1page.Items = ([c1page].map RepositoriesResult.Items).flatten ∧
    ([(1, 100), (2, 98)] : List (Int × Int)).length = [c1page].length + 1 := by
  have hrun : Repositories c1provider 10 (baseQuery 100) =
      .failure c1page (.transport "connection reset") [(1, 100), (2, 98)] [c1page] := by
    decide
  have := c1_amended_abort c1provider (baseQuery 100) 10 c1page
    (.transport "connection reset") [(1, 100), (2, 98)] [c1page] hrun
  exact ⟨hrun, this.1, this.2⟩

/-- A provider whose corpus ends after 130 items: page 2 is a short page
with no next relation. -/
def c2shortProvider (q : Query) : SearchResult :=
  if q.Page = 1 then .response (okResp (linkNext 2) (mkItems 0 100) 130)
  else if q.Page = 2 then .response (okResp "" (mkItems 100 30) 130)
  else .transportErr "unexpected request"

/-- C2: with limit 250 against a provider serving 100, 100, 50 items, the
fetch issues exactly the three requests with per_page 100, 100, 50, no
4th request, and returns 250 items; against a provider whose corpus ends
at 130 items (page 2 short, no next relation) it stops after two
requests with 130 items even though remaining is still positive; and in
general a step's requested per_page is `min(remaining, 100)` and the
remaining count decreases by the number of items actually returned, not
by the requested page size. -/
theorem c2_pagination :
    (Repositories c2provider 10 (baseQuery 250)).isSuccess = true ∧
    (Repositories c2provider 10 (baseQuery 250)).requests = [(1, 100), (2, 100), (3, 50)] ∧
    (Repositories c2provider 10 (baseQuery 250)).resultOf.Items.length = 250 ∧
    (Repositories c2shortProvider 10 (baseQuery 250)).isSuccess = true ∧
    (Repositories c2shortProvider 10 (baseQuery 250)).requests = [(1, 100), (2, 100)] ∧
    (Repositories c2shortProvider 10 (baseQuery 250)).resultOf.Items.length = 130 ∧
    (∀ provider st, (fetchStep provider st).reqPerPage =
      if 0 < st.toRetrieve ∧ nextPage st.prevLink ≠ 0
      then some (min st.toRetrieve maxPerPage) else none) ∧
    (∀ provider st, (fetchStep provider st).contRemaining =
      (fetchStep provider st).contItems.map (fun n => st.toRetrieve - (n : Int))) :=
  ⟨by decide, by decide, by decide, by decide, by decide, by decide,
    fetchStep_reqPerPage, fetchStep_remaining⟩

/-- C8: for a successful fetch against a provider that honours the
requested page size, the returned Result has at most `limit` items, and
its Total and IncompleteResults are those of the most recently fetched
page. -/
theorem c8_invariants (provider : Query → SearchResult) (q : Query) (fuel : Nat)
    (res : RepositoriesResult) (reqs : List (Int × Int)) (pages : List RepositoriesResult)
    (hlim : 0 ≤ q.Limit) (H : HonestProvider provider)
    (h : Repositories provider fuel q = .success res reqs pages) :
    (res.Items.length : Int) ≤ q.Limit ∧
    (∀ p, pages.getLast? = some p →
      res.Total = p.Total ∧ res.IncompleteResults = p.IncompleteResults) := by
  constructor
  · have hle := runFetch_items_le provider H fuel (fetchInit q) [] [] res reqs pages h
    simp only [fetchInit] at hle
    rw [max_eq_left hlim] at hle
    simpa using hle
  · intro p hp
    rcases runFetch_total_last provider fuel (fetchInit q) [] [] res reqs pages h with
      ⟨hpages, hres⟩ | ⟨p', hlast, h1, h2⟩
    · rw [hpages] at hp
      cases hp
    · rw [hlast] at hp
      cases hp
      exact ⟨h1, h2⟩

/-- The single page served by the C8 witness provider. -/
def c8page : RepositoriesResult := { IncompleteResults := false, Items := mkItems 0 1, Total := 7 }

/-- Witness for C8 at a one-page fetch. -/
theorem c8_witness :
    (0 ≤ (baseQuery 30).Limit ∧ HonestProvider c8provider ∧
      Repositories c8provider 5 (baseQuery 30) = .success c8page [(1, 30)] [c8page]) ∧
    ((c8page.Items.length : Int) ≤ (baseQuery 30).Limit ∧
      (∀ p, [c8page].getLast? = some p →
        c8page.Total = p.Total ∧ c8page.IncompleteResults = p.IncompleteResults)) := by
  have hlim : (0 : Int) ≤ (baseQuery 30).Limit := by decide
  have hrun : Repositories c8provider 5 (baseQuery 30) = .success c8page [(1, 30)] [c8page] := by
    decide
  have hh : HonestProvider c8provider := by
    intro q resp pg hq h1 h2 h3 h4
    cases h1
    cases h4
    show (1 : Int) ≤ q.Limit
    omega
  exact ⟨⟨hlim, hh, hrun⟩,
    c8_invariants c8provider (baseQuery 30) 5 c8page [(1, 30)] [c8page] hlim hh hrun⟩

/-- C10: the pagination loop terminates only under an assumption on the
provider. A provider that always answers with zero items and a next link
makes the loop run forever (every fuel is exhausted), while for any
provider whose successful pages each carry an item or no next relation,
fuel `limit + 2` always suffices. -/
theorem c10_termination :
    (∀ fuel, Repositories divProvider fuel (baseQuery 30) = .outOfFuel) ∧
    (∀ (provider : Query → SearchResult) (q : Query), GoodProvider provider →
      Repositories provider (q.Limit.toNat + 2) q ≠ .outOfFuel) := by
  constructor
  · exact div_runs_forever
  · intro provider q H
    exact runFetch_terminates provider H q.Limit.toNat (fetchInit q) [] []
      (Int.self_le_toNat _)

/-- Witness for C10's termination half, at a provider that always returns
one item. -/
theorem c10_witness :
    GoodProvider c8provider ∧
    Repositories c8provider ((baseQuery 30).Limit.toNat + 2) (baseQuery 30) ≠ .outOfFuel := by
  have hg : GoodProvider c8provider := by
    intro q resp pg h1 h2 h3 h4
    cases h1
    cases h4
    left
    decide
  exact ⟨hg, c10_termination.2 c8provider (baseQuery 30) hg⟩

/-- The C3 query: two set qualifiers. -/
def c3query : Query :=
  { Keywords := ["cli"], Kind := "repositories", Limit := 30, Order := unsetParam,
    Page := 0,
    Qualifiers := [{ IsSet := true, Key := "org", Str := "github" },
      { IsSet := true, Key := "user", Str := "octocat" }],
    «Sort» := unsetParam }

def c3e1 : List (String × String) := [("org", "github"), ("user", "octocat")]

def c3e2 : List (String × String) := [("user", "octocat"), ("org", "github")]

/-- C3: QueryString ranges over the map built by listSet, and Go leaves a
map's iteration order unspecified (and randomises it). Both `c3e1` and
`c3e2` are enumerations of that map for the query below, yet they render
to different strings, so two renderings of the same Query need not be
byte-for-byte identical. -/
theorem c3_order_dependent :
    c3e1.Perm (listSet c3query.Qualifiers) ∧
    c3e2.Perm (listSet c3query.Qualifiers) ∧
    QueryStringWith c3query c3e1 = "cli org:github user:octocat" ∧
    QueryStringWith c3query c3e2 = "cli user:octocat org:github" ∧
    QueryStringWith c3query c3e1 ≠ QueryStringWith c3query c3e2 :=
  ⟨by decide, by decide, by decide, by decide, by decide⟩

/-- The C4 query: a single keyword that needs quoting. -/
def c4query : Query :=
  { Keywords := ["a b"], Kind := "repositories", Limit := 30, Order := unsetParam,
    Page := 0, Qualifiers := [], «Sort» := unsetParam }

/-- C4: QueryString is not free of side effects: quoteKeywords writes the
quoted keywords back into the caller's slice, so after one call the Query
is observably changed (its keyword reads back as "\"a b\"") and a second
rendering of the same Query yields a different, doubly quoted string. -/
theorem c4_mutation :
    (QueryStringRun c4query (listSet c4query.Qualifiers)).2 ≠ c4query ∧
    (QueryStringRun c4query (listSet c4query.Qualifiers)).2.Keywords = ["\"a b\""] ∧
    (QueryStringRun ((QueryStringRun c4query (listSet c4query.Qualifiers)).2)
        (listSet c4query.Qualifiers)).1 ≠
      (QueryStringRun c4query (listSet c4query.Qualifiers)).1 :=
  ⟨by decide, by decide, by decide⟩

/-- C5: a keyword with none of the cutset characters renders unchanged; a
keyword with one and no colon is the %q-quoted whole (wrapped in double
quotes); with a colon it splits at the first colon, the key part stays
unquoted (it contains no colon and reassembles to the original), and only
the value is quoted — `label:in progress` renders as
`label:"in progress"`; qualifier values are quoted exactly when they
contain a cutset character and are never key-split. -/
theorem c5_quoting :
    (∀ k : String, containsAnySpecial k = false → quoteKeyword k = k) ∧
    (∀ k : String, containsAnySpecial k = true → splitAtChar ':' k.data = none →
      quoteKeyword k = goQuote k ∧ (quoteKeyword k).data.head? = some '"' ∧
      (quoteKeyword k).data.getLast? = some '"') ∧
    (∀ (k : String) (key val : List Char), containsAnySpecial k = true →
      splitAtChar ':' k.data = some (key, val) →
      quoteKeyword k = String.mk key ++ ":" ++ goQuote (String.mk val) ∧
      ':' ∉ key ∧ key ++ ':' :: val = k.data) ∧
    quoteKeyword "label:in progress" = "label:\"in progress\"" ∧
    (∀ v : String, containsAnySpecial v = false → quoteQualifier v = v) ∧
    (∀ v : String, containsAnySpecial v = true → quoteQualifier v = goQuote v ∧
      (quoteQualifier v).data.head? = some '"' ∧
      (quoteQualifier v).data.getLast? = some '"') := by
  refine ⟨?_, ?_, ?_, by decide, ?_, ?_⟩
  · intro k h
    simp [quoteKeyword, h]
  · intro k h hsplit
    refine ⟨by simp [quoteKeyword, h, hsplit], ?_, ?_⟩
    · simp [quoteKeyword, h, hsplit, goQuote_head]
    · simp [quoteKeyword, h, hsplit, goQuote_last]
  · intro k key val h hsplit
    exact ⟨by simp [quoteKeyword, h, hsplit],
      splitAtChar_not_mem ':' k.data key val hsplit,
      splitAtChar_append ':' k.data key val hsplit⟩
  · intro v h
    simp [quoteQualifier, h]
  · intro v h
    refine ⟨by simp [quoteQualifier, h], ?_, ?_⟩
    · simp [quoteQualifier, h, goQuote_head]
    · simp [quoteQualifier, h, goQuote_last]

/-- Witness for C5 at concrete keywords and qualifier values. -/
theorem c5_witness :
    (containsAnySpecial "cli" = false ∧ quoteKeyword "cli" = "cli") ∧
    (containsAnySpecial "a b" = true ∧ splitAtChar ':' ("a b" : String).data = none ∧
      quoteKeyword "a b" = goQuote "a b" ∧
      (quoteKeyword "a b").data.head? = some '"' ∧
      (quoteKeyword "a b").data.getLast? = some '"') ∧
    (containsAnySpecial "label:in progress" = true ∧
      splitAtChar ':' ("label:in progress" : String).data =
        some (("label" : String).data, ("in progress" : String).data) ∧
      quoteKeyword "label:in progress" =
        String.mk ("label" : String).data ++ ":" ++
          goQuote (String.mk ("in progress" : String).data) ∧
      ':' ∉ ("label" : String).data ∧
      ("label" : String).data ++ ':' :: ("in progress" : String).data =
        ("label:in progress" : String).data) ∧
    (containsAnySpecial "x" = false ∧ quoteQualifier "x" = "x") ∧
    (containsAnySpecial "x y" = true ∧ quoteQualifier "x y" = goQuote "x y") := by
  have h1 : containsAnySpecial "cli" = false := by decide
  have h2 : containsAnySpecial "a b" = true := by decide
  have h2s : splitAtChar ':' ("a b" : String).data = none := by decide
  have h3 : containsAnySpecial "label:in progress" = true := by decide
  have h3s : splitAtChar ':' ("label:in progress" : String).data =
      some (("label" : String).data, ("in progress" : String).data) := by decide
  have h4 : containsAnySpecial "x" = false := by decide
  have h5 : containsAnySpecial "x y" = true := by decide
  have p2 := c5_quoting.2.1 "a b" h2 h2s
  have p3 := c5_quoting.2.2.1 "label:in progress" ("label" : String).data
    ("in progress" : String).data h3 h3s
  exact ⟨⟨h1, c5_quoting.1 "cli" h1⟩, ⟨h2, h2s, p2.1, p2.2.1, p2.2.2⟩,
    ⟨h3, h3s, p3.1, p3.2.1, p3.2.2⟩, ⟨h4, c5_quoting.2.2.2.2.1 "x" h4⟩,
    ⟨h5, (c5_quoting.2.2.2.2.2 "x y" h5).1⟩⟩

/-- C6 (amended): a non-422 error renders `HTTP <code>: <message> (<url>)`;
a 422 with a nonempty error list renders a message containing the
%q-quoted, whitespace-trimmed `q` parameter and the first field-error
message; the `q` parameter itself appears verbatim whenever TrimSpace
leaves it unchanged (no surrounding whitespace — interior spaces are
fine, `%q` does not escape them) and it contains no characters the
quoting escapes (double quote, backslash, characters outside printable
ASCII). That condition is sufficient, not necessary. -/
theorem c6_error_messages :
    (∀ e : httpError, e.StatusCode ≠ 422 →
      e.Error = some ("HTTP " ++ toString e.StatusCode ++ ": " ++ e.Message ++ " (" ++
        e.RequestURL.render ++ ")")) ∧
    (∀ (e : httpError) (it : httpErrorItem) (rest : List httpErrorItem),
      e.StatusCode = 422 → e.Errors = it :: rest →
      ∃ msg, e.Error = some msg ∧
        (goQuote (goTrimSpace (e.RequestURL.getQuery "q"))).data <:+: msg.data ∧
        it.Message.data <:+: msg.data ∧
        (goTrimSpace (e.RequestURL.getQuery "q") = e.RequestURL.getQuery "q" →
          (∀ c ∈ (e.RequestURL.getQuery "q").data, simpleChar c) →
          (e.RequestURL.getQuery "q").data <:+: msg.data)) := by
  constructor
  · intro e h
    unfold httpError.Error
    rw [if_pos h]
  · intro e it rest h422 herr
    refine ⟨"Invalid search query " ++ goQuote (goTrimSpace (e.RequestURL.getQuery "q")) ++
      ".\n" ++ it.Message, ?_, ?_, ?_, ?_⟩
    · unfold httpError.Error
      rw [if_neg (by simp [h422]), herr]
    · refine ⟨("Invalid search query " : String).data,
        (".\n" ++ it.Message : String).data, ?_⟩
      simp [data_append, List.append_assoc]
    · refine ⟨("Invalid search query " ++ goQuote (goTrimSpace (e.RequestURL.getQuery "q")) ++
        ".\n" : String).data, [], ?_⟩
      simp [data_append, List.append_assoc]
    · intro htrim hsimple
      have hq : (goQuote (goTrimSpace (e.RequestURL.getQuery "q"))).data =
          '"' :: (e.RequestURL.getQuery "q").data ++ ['"'] := by
        rw [htrim]
        exact goQuote_simple _ hsimple
      refine ⟨("Invalid search query " : String).data ++ ['"'],
        ['"'] ++ (".\n" ++ it.Message : String).data, ?_⟩
      simp [data_append, hq, List.append_assoc]

/-- A 422 error whose query contains a double quote. -/
def c6err : httpError :=
  { Errors := [{ Code := "", Field := "", Message := "m", Resource := "" }],
    Message := "Validation Failed",
    RequestURL := { render := "https://api.github.com/search/repositories?q=a%22b",
                    queryParams := [("q", "a\"b")] },
    StatusCode := 422 }

/-- C6 counterexample: for a 422 whose `q` parameter contains a double
quote, the rendered message carries the %q-escaped form `a\"b`, so the
message does not contain the q parameter verbatim. -/
theorem c6_counterexample :
    c6err.Error = some "Invalid search query \"a\\\"b\".\nm" ∧
    ¬ (("a\"b" : String).data <:+:
        ("Invalid search query \"a\\\"b\".\nm" : String).data) :=
  ⟨by decide, by decide⟩

def c6item : httpErrorItem :=
  { Code := "", Field := "",
    Message := "The listed users cannot be searched either because the users do not exist or you do not have permission to view them.",
    Resource := "" }

def c6err422 : httpError :=
  { Errors := [c6item], Message := "Validation Failed",
    RequestURL := { render := "https://api.github.com/search/repositories?q=user%3Adoesnotexist",
                    queryParams := [("q", "user:doesnotexist")] },
    StatusCode := 422 }

def c6err503 : httpError :=
  { Errors := [], Message := "oops",
    RequestURL := { render := "https://api.github.com/search/repositories?q=cli",
                    queryParams := [("q", "cli")] },
    StatusCode := 503 }

/-- A 422 whose query has interior whitespace (a typical multi-term query)
but no surrounding whitespace and no escaped characters. -/
def c6err422b : httpError :=
  { Errors := [c6item], Message := "Validation Failed",
    RequestURL := { render := "https://api.github.com/search/repositories?q=cli+org%3Agithub",
                    queryParams := [("q", "cli org:github")] },
    StatusCode := 422 }

/-- Witness for C6 at a 503, at the spec's `user:doesnotexist` example, and
at a query with interior whitespace. -/
theorem c6_witness :
    (c6err503.StatusCode ≠ 422 ∧
      c6err503.Error = some ("HTTP " ++ toString c6err503.StatusCode ++ ": " ++
        c6err503.Message ++ " (" ++ c6err503.RequestURL.render ++ ")")) ∧
    (c6err422.StatusCode = 422 ∧ c6err422.Errors = c6item :: [] ∧
      ∃ msg, c6err422.Error = some msg ∧
        ("user:doesnotexist" : String).data <:+: msg.data ∧
        c6item.Message.data <:+: msg.data) ∧
    (c6err422b.StatusCode = 422 ∧ c6err422b.Errors = c6item :: [] ∧
      ∃ msg, c6err422b.Error = some msg ∧
        ("cli org:github" : String).data <:+: msg.data ∧
        c6item.Message.data <:+: msg.data) := by
  have hne : c6err503.StatusCode ≠ 422 := by decide
  have h422 : c6err422.StatusCode = 422 := by decide
  have herr : c6err422.Errors = c6item :: [] := by decide
  have h422b : c6err422b.StatusCode = 422 := by decide
  have herrb : c6err422b.Errors = c6item :: [] := by decide
  obtain ⟨msg, hmsg, hquoted, hm, hcond⟩ := c6_error_messages.2 c6err422 c6item [] h422 herr
  have hv : (c6err422.RequestURL.getQuery "q").data <:+: msg.data :=
    hcond (by decide) (by decide)
  obtain ⟨msgb, hmsgb, hquotedb, hmb, hcondb⟩ :=
    c6_error_messages.2 c6err422b c6item [] h422b herrb
  have hvb : (c6err422b.RequestURL.getQuery "q").data <:+: msgb.data :=
    hcondb (by decide) (by decide)
  exact ⟨⟨hne, c6_error_messages.1 c6err503 hne⟩,
    ⟨h422, herr, msg, hmsg, hv, hm⟩, ⟨h422b, herrb, msgb, hmsgb, hvb, hmb⟩⟩

/-- The structured error the translator returns for a non-JSON content
type: status line as the message, empty error list. -/
def statusLineError (resp : HttpResponse) : httpError :=
  { Errors := [], Message := resp.status, RequestURL := resp.requestURL,
    StatusCode := resp.statusCode }

/-- A response with both body decodings replaced. -/
def withBody (resp : HttpResponse) (eb : Decoded ErrorBody)
    (pb : Decoded RepositoriesResult) : HttpResponse :=
  { resp with errorBody := eb, pageBody := pb }

/-- C7: for a failed response whose Content-Type is not a JSON media type,
the translator's output is the structured error whose message is exactly
the status line with an empty error list, and it is independent of the
response body (replacing both body decodings changes nothing). -/
theorem c7_non_json (resp : HttpResponse) (eb : Decoded ErrorBody)
    (pb : Decoded RepositoriesResult) (h : jsonTypeMatch resp.contentType = false) :
    handleHTTPError resp = .httpErr (statusLineError resp) ∧
    (statusLineError resp).Message = resp.status ∧
    (statusLineError resp).Errors = [] ∧
    handleHTTPError (withBody resp eb pb) = handleHTTPError resp := by
  refine ⟨?_, rfl, rfl, ?_⟩
  · unfold handleHTTPError
    rw [if_pos h]
    rfl
  · unfold handleHTTPError
    rw [if_pos h]
    have h2 : jsonTypeMatch (withBody resp eb pb).contentType = false := h
    rw [if_pos h2]
    rfl

/-- A non-JSON 503 response. -/
def c7resp : HttpResponse :=
  { statusCode := 503, status := "503 Service Unavailable", contentType := "text/plain",
    linkHeader := "", requestURL := emptyURL,
    errorBody := .failed "body is not JSON", pageBody := .failed "body is not JSON" }

/-- Witness for C7 at a non-JSON 503 response. -/
theorem c7_witness :
    jsonTypeMatch c7resp.contentType = false ∧
    handleHTTPError c7resp = .httpErr (statusLineError c7resp) ∧
    (statusLineError c7resp).Message = "503 Service Unavailable" ∧
    (statusLineError c7resp).Errors = [] ∧
    handleHTTPError (withBody c7resp (.ok { Message := "ignored", Errors := [] })
      (.ok { IncompleteResults := false, Items := [], Total := 0 })) =
      handleHTTPError c7resp := by
  have h : jsonTypeMatch c7resp.contentType = false := by decide
  have hh := c7_non_json c7resp (.ok { Message := "ignored", Errors := [] })
    (.ok { IncompleteResults := false, Items := [], Total := 0 }) h
  exact ⟨h, hh.1, by decide, hh.2.2.1, hh.2.2.2⟩

/-- What the translator produces for a 422 JSON body with no `errors`
entries. -/
def c9err : httpError :=
  { Errors := [], Message := "Validation Failed",
    RequestURL := { render := "https://api.github.com/search/repositories?q=cli",
                    queryParams := [("q", "cli")] },
    StatusCode := 422 }

def c9resp : HttpResponse :=
  { statusCode := 422, status := "422 Unprocessable Entity",
    contentType := "application/json; charset=utf-8", linkHeader := "",
    requestURL := c9err.RequestURL,
    errorBody := .ok { Message := "Validation Failed", Errors := [] },
    pageBody := .failed "not a result page" }

/-- C9: the translator maps a 422 JSON response without `errors` entries
to an httpError with an empty Errors list, and rendering that error's
message indexes `Errors[0]` out of bounds — a panic, modelled as `none` —
so `httpError.Error` is not total over translator outputs at status 422. -/
theorem c9_panic :
    handleHTTPError c9resp = .httpErr c9err ∧ c9err.Error = none :=
  ⟨by decide, by decide⟩
